import Mathlib

/-!
Verification development for a Coinglass open-interest (OI) monitor.

The program (src/main.py) injects a JSON.parse hook into a browser page to
capture an OI payload (`INJECT_JS` / `detect`), resolves it into a canonical
per-symbol snapshot (`analyze_and_notify`, record loop), diffs it against the
previously stored snapshot, sorts the resulting alerts, saves the new snapshot,
and renders a notification card (`send_feishu`).

Conventions of the shallow embedding:
* JSON values are modelled by `JVal`; Python/JS numbers are modelled by `ℚ`
  (no claim here depends on binary floating-point rounding).
* Python dictionaries are modelled as insertion-ordered association lists with
  in-place update on existing keys (`upsert`), which is exactly the observable
  behaviour of `dict` assignment and iteration.
* Exceptions that escape to the outer `try` of `analyze_and_notify` are
  modelled with `Except Unit`; the silent per-record `except: pass` is
  modelled by returning `none` for the record.
* `datetime.now().timestamp()` is passed in as an explicit parameter `t`.
-/

/-- JSON-like values as produced by `JSON.parse` / `json.loads`. -/
inductive JVal where
  | null
  | bool (b : Bool)
  | num (q : ℚ)
  | str (s : String)
  | arr (xs : List JVal)
  | obj (fields : List (String × JVal))

/-- JavaScript property access `j.k` / Python `dict.get(k)`: `none` models
`undefined`/`None` (missing key, or access on a non-object). -/
def jget (j : JVal) (k : String) : Option JVal :=
  match j with
  | .obj fields => (fields.find? (fun p => p.1 == k)).map (fun p => p.2)
  | _ => none

/-- JavaScript / Python truthiness of a JSON value. -/
def jtruthy : JVal → Bool
  | .null => false
  | .bool b => b
  | .num q => q != 0
  | .str s => s != ""
  | .arr _ => true
  | .obj _ => true

/-- Python `x is None` test; JSON `null` and a missing key both come back as
`None` from `dict.get`. -/
def isNull : JVal → Bool
  | .null => true
  | _ => false

/-- Python / JavaScript `a or b`: `b` exactly when `a` is falsy. -/
def pyOr (a b : JVal) : JVal :=
  if jtruthy a then a else b

/-- The `Array.isArray` view of a value. -/
def asArr : JVal → Option (List JVal)
  | .arr xs => some xs
  | _ => none

/-- Property `j.k` when it is an array: models `j.k && Array.isArray(j.k)`
(arrays are always truthy). -/
def jarrGet (j : JVal) (k : String) : Option (List JVal) :=
  match jget j k with
  | some (.arr xs) => some xs
  | _ => none

/-- The `else if` ladder of `detect` in `INJECT_JS` (src/main.py lines 47-50):
take the top-level value if it is an array, else `.data` if an array, else
`.list` if an array, else `.data.list` if `.data` is truthy and `.data.list`
is an array. -/
def selectList (json : JVal) : Option (List JVal) :=
  match asArr json with
  | some xs => some xs
  | none =>
    match jarrGet json "data" with
    | some xs => some xs
    | none =>
      match jarrGet json "list" with
      | some xs => some xs
      | none =>
        match jget json "data" with
        | some d => if jtruthy d then jarrGet d "list" else none
        | none => none

/-- Models `Object.keys(first)` for the values that pass
`!first || typeof first !== 'object'` in `detect`: plain objects give their
key list, arrays give their index strings, everything else was rejected. -/
def jsKeys : JVal → Option (List String)
  | .obj fields => some (fields.map Prod.fst)
  | .arr xs => some ((List.range xs.length).map toString)
  | _ => none

/-- The structural fingerprint test of `detect` (src/main.py lines 52-60):
at least 5 elements, and the first element is an object exposing a
symbol-like key and an open-interest-like key. -/
def fingerprint (list : List JVal) : Bool :=
  if list.length < 5 then false
  else
    match jsKeys (list.headD .null) with
    | none => false
    | some keys =>
      (keys.contains "symbol" || keys.contains "uSymbol")
        && (keys.contains "openInterest" || keys.contains "oi"
            || keys.contains "oiAmount")

/-- The full `detect` function of `INJECT_JS`: `some l` means the payload is
signalled to the host (via `window.onCapturedData`) with list `l`;
`none` means no signal. -/
def detect (json : JVal) : Option (List JVal) :=
  match selectList json with
  | some list => if fingerprint list then some list else none
  | none => none

/-- The four nesting shapes the spec names, in priority order
(top-level array; `.data`; `.list`; `.data.list`), each examined
independently of the others. -/
def shapeCandidates (json : JVal) : List (Option (List JVal)) :=
  [asArr json,
   jarrGet json "data",
   jarrGet json "list",
   match jget json "data" with
   | some d => if jtruthy d then jarrGet d "list" else none
   | none => none]

/-- Python's `str.replace('/USDT', '')` on the character list: remove
non-overlapping occurrences of `/USDT` left to right. -/
def pyReplaceSep : List Char → List Char
  | [] => []
  | '/' :: 'U' :: 'S' :: 'D' :: 'T' :: rest => pyReplaceSep rest
  | c :: cs => c :: pyReplaceSep cs

/-- Symbol normalization, src/main.py line 180:
`symbol = symbol.replace('/USDT', '') + 'USDT'`. -/
def normalizeSym (s : String) : String :=
  String.mk (pyReplaceSep s.data ++ ['U', 'S', 'D', 'T'])

/-- Digit string to natural number. -/
def digitsToNat (l : List Char) : Nat :=
  l.foldl (fun n c => 10 * n + (c.toNat - '0'.toNat)) 0

/-- Unsigned decimal literal `digits[.digits]`, at least one digit. -/
def parseDecimal (l : List Char) : Option ℚ :=
  match l.span Char.isDigit with
  | (intPart, rest) =>
    match rest with
    | [] => if intPart.isEmpty then none else some (digitsToNat intPart : ℚ)
    | '.' :: frac =>
      if frac.all Char.isDigit && !(intPart.isEmpty && frac.isEmpty) then
        some ((digitsToNat intPart : ℚ) + (digitsToNat frac : ℚ) / 10 ^ frac.length)
      else none
    | _ => none

/-- Python `float(...)` applied to a string: optional sign then a decimal
literal. (Exponent, whitespace and `inf`/`nan` forms are omitted; no claim
depends on them — only on some strings parsing and non-numeric ones failing.) -/
def pyFloatStr (s : String) : Option ℚ :=
  match s.data with
  | '-' :: rest => (parseDecimal rest).map (fun q => -q)
  | '+' :: rest => parseDecimal rest
  | l => parseDecimal l

/-- Python `float(x)` on a JSON value: numbers pass through, strings are
parsed, booleans coerce to 0/1, everything else raises (`none`). -/
def pyFloat : JVal → Option ℚ
  | .num q => some q
  | .str s => pyFloatStr s
  | .bool b => some (if b then 1 else 0)
  | _ => none

/-- Canonical per-symbol record stored in `current_map` / history
(src/main.py lines 208-213). -/
structure Entry where
  oi : ℚ
  price : ℚ
  oi_usdt : ℚ
  time : ℚ
deriving Repr, DecidableEq

/-- A snapshot: a Python dict keyed by normalized symbol, modelled as an
insertion-ordered association list with unique keys. -/
abbrev Snapshot := List (String × Entry)

/-- Python `dict` assignment `m[k] = v`: update in place when the key exists,
append otherwise. -/
def upsert (m : Snapshot) (k : String) (v : Entry) : Snapshot :=
  if m.any (fun p => p.1 == k) then
    m.map (fun p => if p.1 == k then (k, v) else p)
  else m ++ [(k, v)]

/-- Dict lookup by key (first occurrence). -/
def lookup (m : Snapshot) (s : String) : Option Entry :=
  (m.find? (fun p => p.1 == s)).map (fun p => p.2)

/-- Python `'k' in item` for a dict value. -/
def hasKey (item : JVal) (k : String) : Bool :=
  match item with
  | .obj fields => fields.any (fun p => p.1 == k)
  | _ => false

/-- Python `item.get(k)` with missing keys as `null` (i.e. `None`). Only used
after `item` has been established to be a dict. -/
def dictGetD (item : JVal) (k : String) : JVal :=
  (jget item k).getD .null

/-- Models `item.get('symbol') or item.get('uSymbol')` (src/main.py line 172). -/
def resolveSymbol (item : JVal) : JVal :=
  pyOr (dictGetD item "symbol") (dictGetD item "uSymbol")

/-- Models `item.get('openInterest') or item.get('oi')` (src/main.py line 174). -/
def resolveOi (item : JVal) : JVal :=
  pyOr (dictGetD item "openInterest") (dictGetD item "oi")

/-- Models `item.get('price') or item.get('lastPrice') or item.get('close') or 0`
(src/main.py line 175). -/
def resolvePrice (item : JVal) : JVal :=
  pyOr (dictGetD item "price")
    (pyOr (dictGetD item "lastPrice") (pyOr (dictGetD item "close") (.num 0)))

/-- The notional derivation (src/main.py lines 200-204):
`oi_usdt = oi_val * price_val if price_val > 0 else 0`, then overridden by
`float(item['openInterestAmount'])` when that key is present; `none` models
the override coercion raising (caught by the inner `except`, record dropped). -/
def computeOiUsdt (item : JVal) (oi_val price_val : ℚ) : Option ℚ :=
  if hasKey item "openInterestAmount" then
    pyFloat (dictGetD item "openInterestAmount")
  else
    some (if 0 < price_val then oi_val * price_val else 0)

/-- One iteration of the record loop of `analyze_and_notify`
(src/main.py lines 170-215). `.error ()` models an exception escaping to the
outer handler (`item.get` on a non-dict, or `.replace` on a truthy non-string
symbol, both outside the inner `try`); `.ok none` models a record dropped
silently (failed field check, inner `except: pass`, or the
`oi_usdt >= MIN_OI_USDT` filter); `.ok (some (s, e))` is an accepted record. -/
def processItem (item : JVal) (minOi t : ℚ) : Except Unit (Option (String × Entry)) :=
  match item with
  | .obj _ =>
    if jtruthy (resolveSymbol item) && !(isNull (resolveOi item)) then
      match resolveSymbol item with
      | .str s =>
        match pyFloat (resolveOi item), pyFloat (resolvePrice item) with
        | some oi_val, some price_val =>
          match computeOiUsdt item oi_val price_val with
          | some v =>
            if minOi ≤ v then .ok (some (normalizeSym s, ⟨oi_val, price_val, v, t⟩))
            else .ok none
          | none => .ok none
        | _, _ => .ok none
      | _ => .error ()
    else .ok none
  | _ => .error ()

/-- Fold step accumulating `current_map` over the record list. -/
def buildStep (minOi t : ℚ) (st : Except Unit Snapshot) (item : JVal) :
    Except Unit Snapshot :=
  match st with
  | .error e => .error e
  | .ok m =>
    match processItem item minOi t with
    | .error e => .error e
    | .ok none => .ok m
    | .ok (some (s, e)) => .ok (upsert m s e)

/-- The `current_map` construction loop over the parsed payload
(src/main.py lines 169-215). Iterating an empty dict or empty string yields no
records; a non-empty dict/string yields non-dict items whose `.get` raises;
numbers/booleans/null are not iterable and raise at the `for`. -/
def buildCurrentMap (dataList : JVal) (minOi t : ℚ) : Except Unit Snapshot :=
  match dataList with
  | .arr items => items.foldl (buildStep minOi t) (.ok [])
  | .obj [] => .ok []
  | .str "" => .ok []
  | _ => .error ()

/-- A computed alert (src/main.py lines 238-246). -/
structure Alert where
  symbol : String
  oi : ℚ
  oi_usdt : ℚ
  price : ℚ
  change : ℚ
  trend : String
  prev_oi : ℚ
deriving Repr, DecidableEq

/-- Per-symbol diff body (src/main.py lines 222-246): skip symbols absent from
history, skip `last_oi <= 0`, emit iff `abs(change) >= threshold`. -/
def alertFor (history : Snapshot) (threshold : ℚ) (sc : String × Entry) :
    Option Alert :=
  match lookup history sc.1 with
  | none => none
  | some last =>
    if last.oi ≤ 0 then none
    else
      let change := (sc.2.oi - last.oi) / last.oi
      if threshold ≤ |change| then
        some ⟨sc.1, sc.2.oi, sc.2.oi_usdt, sc.2.price, change,
              if 0 < change then "🚀" else "📉", last.oi⟩
      else none

/-- The diff & alert engine: one pass over `current_map` in insertion order. -/
def diffAlerts (current history : Snapshot) (threshold : ℚ) : List Alert :=
  current.filterMap (alertFor history threshold)

/-- Sort key: `abs(x['change'])` (src/main.py line 255). -/
def sortKey (a : Alert) : ℚ := |a.change|

/-- Stable insertion into a descending list: `a` goes before the first element
whose key is `≤` its own, so an element coming earlier in the input stays
before later elements with an equal key. -/
def insertAlert (a : Alert) : List Alert → List Alert
  | [] => [a]
  | b :: bs => if sortKey b ≤ sortKey a then a :: b :: bs else b :: insertAlert a bs

/-- Models `alerts.sort(key=lambda x: abs(x['change']), reverse=True)`: Python's
`list.sort` is a stable sort, and a stable sort is uniquely determined by its
key; it is modelled by stable insertion sort on the descending order. -/
def sortAlertsDesc : List Alert → List Alert
  | [] => []
  | a :: rest => insertAlert a (sortAlertsDesc rest)

/-- The body of `analyze_and_notify` after `json.loads` succeeded
(src/main.py lines 166-258), with I/O reified: the first component is the
snapshot passed to `save_history` (`none` when an exception aborted the run
before the save), the second the sorted alert list handed to `send_feishu`
(empty when nothing is pushed). -/
def analyze_and_notify (dataList : JVal) (minOi threshold t : ℚ)
    (history : Snapshot) : Option Snapshot × List Alert :=
  match buildCurrentMap dataList minOi t with
  | .error _ => (none, [])
  | .ok current =>
    let alerts := diffAlerts current history threshold
    (some current, sortAlertsDesc alerts)

/-- The `monitor_settings` section of `config.json`; a field is `none` when
the key is absent. -/
structure MonitorSettings where
  oi_change_threshold : Option ℚ
  min_oi_usdt : Option ℚ

/-- The configuration consumed by the monitor. -/
structure AppConfig where
  monitor_settings : Option MonitorSettings

/-- Models `monitor_cfg.get("oi_change_threshold", 0.05)` (src/main.py line 159):
the threshold used for filtering. -/
def activeThreshold (c : AppConfig) : ℚ :=
  ((c.monitor_settings.bind (fun m => m.oi_change_threshold)).getD (5 / 100))

/-- Models `monitor_cfg.get("min_oi_usdt", 0)` (src/main.py line 161):
the minimum notional used for filtering. -/
def activeMinOi (c : AppConfig) : ℚ :=
  ((c.monitor_settings.bind (fun m => m.min_oi_usdt)).getD 0)

/-- The threshold value rendered in the card footer
(`config.get('monitor_settings', {}).get('oi_change_threshold', 0.05)`,
src/main.py line 320). -/
def footerThreshold (c : AppConfig) : ℚ :=
  ((c.monitor_settings.bind (fun m => m.oi_change_threshold)).getD (5 / 100))

/-- The minimum-notional value rendered in the card footer
(`config.get('monitor_settings', {}).get('min_oi_usdt', 10000000)`,
src/main.py line 320). -/
def footerMinOi (c : AppConfig) : ℚ :=
  ((c.monitor_settings.bind (fun m => m.min_oi_usdt)).getD 10000000)

/-- The host-side capture callback `on_data_received`
(src/main.py lines 150-153) acting on the future's state: set the result only
when the future is not yet done. -/
def on_data_received (json_str : String) (future : Option String) : Option String :=
  if future.isSome then future else some json_str

/-- State of the one-shot future after a sequence of callback invocations. -/
def runCallbacks (msgs : List String) : Option String :=
  msgs.foldl (fun f m => on_data_received m f) none

/-! Concrete test vectors used by the theorems below. -/

/-- Entry with price 1 and notional equal to its oi, as built from a record
`{symbol, openInterest = oi, price = 1}`. -/
def mkE (oi : ℚ) : Entry := ⟨oi, 1, oi, 0⟩

/-- Alert on symbol "A" with change +0.20. -/
def alertA : Alert := ⟨"A", 1, 1, 1, 1/5, "🚀", 1⟩

/-- Alert on symbol "B" with change -0.20. -/
def alertB : Alert := ⟨"B", 1, 1, 1, -1/5, "📉", 1⟩

/-- Alert on symbol "C" with change +0.10. -/
def alertC : Alert := ⟨"C", 1, 1, 1, 1/10, "🚀", 1⟩

/-- A qualifying raw record exposing both fingerprint fields. -/
def goodRec : JVal := .obj [("symbol", .str "BTC"), ("openInterest", .num 1)]

/-- Five qualifying records: passes the fingerprint test. -/
def good5 : List JVal := [goodRec, goodRec, goodRec, goodRec, goodRec]

/-- A payload whose `.data` is a short array (fails the fingerprint) while its
`.list` holds a fully qualifying list. -/
def cexJson : JVal := .obj [("data", .arr [.num 1, .num 2]), ("list", .arr good5)]

/-- Record with resolvable symbol and oi and successful coercion, but a
negative open interest, hence a negative derived notional. -/
def negItem : JVal := .obj [("symbol", .str "A"), ("oi", .num (-5)), ("price", .num 1)]

/-- Record whose `oi` fallback field is exactly 0 (and `openInterest` absent). -/
def zeroOiItem : JVal := .obj [("symbol", .str "A"), ("oi", .num 0), ("price", .num 1)]

/-- Record with a negative price. -/
def negPriceItem : JVal := .obj [("symbol", .str "A"), ("oi", .num 2), ("price", .num (-3))]

/-- Record carrying the explicit `openInterestAmount` override field. -/
def amtItem : JVal :=
  .obj [("symbol", .str "A"), ("oi", .num 2), ("price", .num 3),
        ("openInterestAmount", .num 50)]

/-- A well-formed raw record with the given symbol, numeric OI and price 1. -/
def goodItem (name : String) (q : ℚ) : JVal :=
  .obj [("symbol", .str name), ("openInterest", .num q), ("price", .num 1)]

/-- A raw record whose OI field is not numeric. -/
def badItem (name : String) : JVal :=
  .obj [("symbol", .str name), ("openInterest", .str "notanumber"), ("price", .num 1)]

/-- Batch of 10 records of which 3 have non-numeric OI fields. -/
def batch10 : List JVal :=
  [goodItem "A" 1, goodItem "B" 2, badItem "X", goodItem "C" 3, goodItem "D" 4,
   badItem "Y", goodItem "E" 5, badItem "Z", goodItem "F" 6, goodItem "G" 7]

/-- A payload that parses as JSON (`"[1,2,3,4,5]"`) but whose elements are
numbers, so `item.get('symbol')` raises for the first record. -/
def numsPayload : JVal := .arr [.num 1, .num 2, .num 3, .num 4, .num 5]

/-! ### Helper lemmas -/

theorem pyReplaceSep_length (l : List Char) :
    ∃ k, l.length = (pyReplaceSep l).length + 5 * k := by
  induction l using pyReplaceSep.induct with
  | case1 => exact ⟨0, rfl⟩
  | case2 rest ih =>
    obtain ⟨k, hk⟩ := ih
    exact ⟨k + 1, by simp [pyReplaceSep, hk]; ring⟩
  | case3 c cs h ih =>
    obtain ⟨k, hk⟩ := ih
    exact ⟨k, by simp [pyReplaceSep, hk]; omega⟩

theorem alertFor_some_iff (history : Snapshot) (t : ℚ) (s : String) (c : Entry) (a : Alert) :
    alertFor history t (s, c) = some a ↔
      ∃ p, lookup history s = some p ∧ 0 < p.oi ∧ t ≤ |(c.oi - p.oi) / p.oi| ∧
        a = ⟨s, c.oi, c.oi_usdt, c.price, (c.oi - p.oi) / p.oi,
             if 0 < (c.oi - p.oi) / p.oi then "🚀" else "📉", p.oi⟩ := by
  unfold alertFor
  cases h : lookup history s with
  | none => simp
  | some p =>
    by_cases h1 : p.oi ≤ 0
    · simp [h1, not_lt.mpr h1]
    · simp only [if_neg h1]
      rw [not_le] at h1
      by_cases h2 : t ≤ |(c.oi - p.oi) / p.oi|
      · simp [h2, h1, eq_comm]
      · simp [h2, h1]

theorem mem_iff_lookup {m : Snapshot} (h : (m.map Prod.fst).Nodup) (s : String) (c : Entry) :
    (s, c) ∈ m ↔ lookup m s = some c := by
  induction m with
  | nil => simp [lookup]
  | cons hd tl ih =>
    obtain ⟨k, v⟩ := hd
    simp only [List.map_cons, List.nodup_cons] at h
    obtain ⟨hhd, htl⟩ := h
    by_cases hs : k = s
    · subst hs
      have : ¬ (k, c) ∈ tl := fun hmem => hhd (List.mem_map.mpr ⟨(k, c), hmem, rfl⟩)
      simp [lookup, List.find?_cons, this, eq_comm]
    · have hne : ((fun p => p.1 == s) (k, v)) = false := by simp [hs]
      simp only [lookup, List.find?_cons, hne]
      rw [← lookup]
      constructor
      · intro hmem
        rcases List.mem_cons.mp hmem with heq | hmem2
        · exact absurd (congrArg Prod.fst heq).symm hs
        · exact (ih htl).mp hmem2
      · intro hl
        exact List.mem_cons.mpr (Or.inr ((ih htl).mpr hl))

theorem mem_diffAlerts (current history : Snapshot) (t : ℚ) (a : Alert) :
    a ∈ diffAlerts current history t ↔
      ∃ sc ∈ current, alertFor history t sc = some a := by
  simp [diffAlerts, List.mem_filterMap]

theorem insertAlert_perm (a : Alert) (l : List Alert) :
    List.Perm (insertAlert a l) (a :: l) := by
  induction l with
  | nil => simp [insertAlert]
  | cons b bs ih =>
    by_cases h : sortKey b ≤ sortKey a
    · simp [insertAlert, h]
    · simp only [insertAlert, if_neg h]
      exact (ih.cons b).trans (List.Perm.swap a b bs)

theorem sortAlertsDesc_perm (l : List Alert) : List.Perm (sortAlertsDesc l) l := by
  induction l with
  | nil => simp [sortAlertsDesc]
  | cons a rest ih => exact (insertAlert_perm a _).trans (ih.cons a)

theorem insertAlert_sorted (a : Alert) (l : List Alert)
    (h : l.Pairwise (fun x y => sortKey y ≤ sortKey x)) :
    (insertAlert a l).Pairwise (fun x y => sortKey y ≤ sortKey x) := by
  induction l with
  | nil => simp [insertAlert]
  | cons b bs ih =>
    rcases List.pairwise_cons.mp h with ⟨hb, hbs⟩
    by_cases hcmp : sortKey b ≤ sortKey a
    · simp only [insertAlert, if_pos hcmp]
      refine List.pairwise_cons.mpr ⟨?_, h⟩
      intro y hy
      rcases List.mem_cons.mp hy with rfl | hybs
      · exact hcmp
      · exact le_trans (hb y hybs) hcmp
    · simp only [insertAlert, if_neg hcmp]
      refine List.pairwise_cons.mpr ⟨?_, ih hbs⟩
      intro y hy
      have hmem := (insertAlert_perm a bs).mem_iff.mp hy
      rcases List.mem_cons.mp hmem with rfl | hybs
      · exact le_of_lt (not_le.mp hcmp)
      · exact hb y hybs

theorem sortAlertsDesc_sorted (l : List Alert) :
    (sortAlertsDesc l).Pairwise (fun x y => sortKey y ≤ sortKey x) := by
  induction l with
  | nil => simp [sortAlertsDesc]
  | cons a rest ih => exact insertAlert_sorted a _ ih

theorem filter_insertAlert (a : Alert) (l : List Alert) (k : ℚ) :
    (insertAlert a l).filter (fun x => sortKey x == k) =
      (if sortKey a == k then [a] else []) ++ l.filter (fun x => sortKey x == k) := by
  induction l with
  | nil => by_cases h : sortKey a == k <;> simp [insertAlert, List.filter, h]
  | cons b bs ih =>
    by_cases hcmp : sortKey b ≤ sortKey a
    · simp only [insertAlert, if_pos hcmp]
      by_cases h : sortKey a == k <;> simp [List.filter_cons, h]
    · simp only [insertAlert, if_neg hcmp]
      rw [List.filter_cons, List.filter_cons]
      by_cases hbk : sortKey b == k
      · have hak : (sortKey a == k) = false := by
          have hlt : sortKey a < sortKey b := not_le.mp hcmp
          have hbkq : sortKey b = k := by simpa using hbk
          simp [beq_iff_eq]
          intro hEq
          rw [hEq, hbkq] at hlt
          exact lt_irrefl _ hlt
        rw [ih, hak]
        simp [hbk]
      · rw [ih]
        by_cases h : sortKey a == k <;> simp [h, hbk]

theorem filter_sortAlertsDesc (l : List Alert) (k : ℚ) :
    (sortAlertsDesc l).filter (fun x => sortKey x == k) =
      l.filter (fun x => sortKey x == k) := by
  induction l with
  | nil => rfl
  | cons a rest ih =>
    rw [sortAlertsDesc, filter_insertAlert, ih, List.filter_cons]
    by_cases h : sortKey a == k <;> simp [h]

theorem hasKey_false_jget {fields : List (String × JVal)} {k : String}
    (h : hasKey (.obj fields) k = false) : jget (.obj fields) k = none := by
  simp only [hasKey, List.any_eq_false] at h
  have hf : fields.find? (fun p => p.1 == k) = none :=
    List.find?_eq_none.mpr h
  simp [jget, hf]

theorem buildStep_dropped {minOi t : ℚ} {item : JVal}
    (h : processItem item minOi t = .ok none) (st : Except Unit Snapshot) :
    buildStep minOi t st item = st := by
  cases st with
  | error e => rfl
  | ok m => simp [buildStep, h]

theorem foldl_buildStep_error (minOi t : ℚ) (items : List JVal) :
    items.foldl (buildStep minOi t) (.error ()) = .error () := by
  induction items with
  | nil => rfl
  | cons x xs ih => simpa [buildStep] using ih

theorem lookup_isSome_iff (m : Snapshot) (s : String) :
    (lookup m s).isSome ↔ s ∈ m.map Prod.fst := by
  induction m with
  | nil => simp [lookup]
  | cons p ps ih =>
    by_cases hp : p.1 = s
    · simp [lookup, List.find?_cons, hp]
    · have hpb : (p.1 == s) = false := by simpa using hp
      simp only [lookup, List.find?_cons, hpb, List.map_cons, List.mem_cons]
      rw [← lookup]
      constructor
      · intro h; exact Or.inr (ih.mp h)
      · rintro (h | h)
        · exact absurd h.symm hp
        · exact ih.mpr h

theorem mem_keys_upsert (m : Snapshot) (k : String) (v : Entry) (s : String) :
    s ∈ (upsert m k v).map Prod.fst ↔ s = k ∨ s ∈ m.map Prod.fst := by
  unfold upsert
  by_cases hany : m.any (fun p => p.1 == k)
  · simp only [hany, if_true, List.map_map, List.mem_map]
    constructor
    · rintro ⟨p, hp, heq⟩
      by_cases hpk : p.1 == k
      · left
        simpa [Function.comp, hpk] using heq.symm
      · right
        exact ⟨p, hp, by simpa [Function.comp, hpk] using heq⟩
    · rintro (rfl | hs)
      · obtain ⟨p, hp, hpk⟩ := List.any_eq_true.mp hany
        exact ⟨p, hp, by simp [Function.comp, hpk]⟩
      · obtain ⟨p, hp, heq⟩ := hs
        refine ⟨p, hp, ?_⟩
        by_cases hpk : p.1 == k
        · have hp1 : p.1 = k := by simpa using hpk
          simp [Function.comp, hpk, ← heq, hp1]
        · have hsk : ¬ s = k := fun hc => hpk (by simp [heq, hc])
          simp [Function.comp, hpk, heq, hsk]
  · simp only [hany, if_false, Bool.false_eq_true, List.map_append, List.mem_append]
    simp [or_comm]

theorem foldl_preserves_key (minOi t : ℚ) (items : List JVal) (m m' : Snapshot) (s : String)
    (hrun : items.foldl (buildStep minOi t) (.ok m) = .ok m')
    (h : s ∈ m.map Prod.fst) : s ∈ m'.map Prod.fst := by
  induction items generalizing m with
  | nil =>
    simp only [List.foldl_nil] at hrun
    cases hrun
    exact h
  | cons x xs ih =>
    rw [List.foldl_cons] at hrun
    cases hx : buildStep minOi t (.ok m) x with
    | error e =>
      rw [hx, foldl_buildStep_error] at hrun
      cases hrun
    | ok m1 =>
      rw [hx] at hrun
      refine ih m1 hrun ?_
      unfold buildStep at hx
      cases hpi : processItem x minOi t with
      | error e => simp [hpi] at hx
      | ok o =>
        cases o with
        | none => rw [hpi] at hx; cases hx; exact h
        | some se =>
          rw [hpi] at hx
          cases hx
          exact (mem_keys_upsert m se.1 se.2 s).mpr (Or.inr h)

theorem accepted_key_present (minOi t : ℚ) (items : List JVal) (m0 m : Snapshot)
    (item : JVal) (s : String) (e : Entry)
    (hmem : item ∈ items)
    (hacc : processItem item minOi t = .ok (some (s, e)))
    (hrun : items.foldl (buildStep minOi t) (.ok m0) = .ok m) :
    (lookup m s).isSome := by
  rw [lookup_isSome_iff]
  induction items generalizing m0 with
  | nil => cases hmem
  | cons x xs ih =>
    rw [List.foldl_cons] at hrun
    rcases List.mem_cons.mp hmem with rfl | hmem2
    · have hx : buildStep minOi t (.ok m0) item = .ok (upsert m0 s e) := by
        simp [buildStep, hacc]
      rw [hx] at hrun
      exact foldl_preserves_key minOi t xs _ m s hrun
        ((mem_keys_upsert m0 s e s).mpr (Or.inl rfl))
    · cases hx : buildStep minOi t (.ok m0) x with
      | error er =>
        rw [hx, foldl_buildStep_error] at hrun
        cases hrun
      | ok m1 =>
        rw [hx] at hrun
        exact ih m1 hmem2 hrun

theorem foldl_callbacks_some (l : List String) (r : String) :
    l.foldl (fun f m => on_data_received m f) (some r) = some r := by
  induction l with
  | nil => rfl
  | cons x xs ih => simpa [on_data_received] using ih

theorem dropped_no_effect (minOi t : ℚ) (l1 l2 : List JVal) (item : JVal)
    (h : processItem item minOi t = .ok none) :
    buildCurrentMap (.arr (l1 ++ item :: l2)) minOi t =
      buildCurrentMap (.arr (l1 ++ l2)) minOi t := by
  simp only [buildCurrentMap, List.foldl_append, List.foldl_cons]
  rw [buildStep_dropped h]

theorem processItem_ok_some {item : JVal} {minOi t : ℚ} {s : String} {e : Entry}
    (h : processItem item minOi t = .ok (some (s, e))) :
    ∃ nm, resolveSymbol item = .str nm ∧ s = normalizeSym nm ∧
      pyFloat (resolveOi item) = some e.oi ∧
      pyFloat (resolvePrice item) = some e.price ∧
      computeOiUsdt item e.oi e.price = some e.oi_usdt ∧
      e.time = t ∧ minOi ≤ e.oi_usdt := by
  cases item with
  | null => exact absurd h (by simp [processItem])
  | bool b => exact absurd h (by simp [processItem])
  | num q => exact absurd h (by simp [processItem])
  | str s2 => exact absurd h (by simp [processItem])
  | arr xs => exact absurd h (by simp [processItem])
  | obj fields =>
    simp only [processItem] at h
    split at h
    · split at h
      · split at h
        · split at h
          · split at h
            · simp only [Except.ok.injEq, Option.some.injEq, Prod.mk.injEq] at h
              obtain ⟨hs, he⟩ := h
              subst he
              exact ⟨_, by assumption, hs.symm, by assumption, by assumption,
                     by assumption, rfl, by assumption⟩
            · simp at h
          · simp at h
        · simp at h
      · simp at h
    · simp at h

/-! ### Claim theorems -/

/-- C1. The diff step emits an alert for symbol `s` iff `s` is present in both
snapshots, the previous oi is strictly positive, and `|change| ≥ threshold`
where `change = (current.oi - previous.oi) / previous.oi`; with previous oi
100 and threshold 0.05, current oi 106 yields the alert with change 0.06,
current oi 104 yields none, previous oi 0 never yields an alert, and a symbol
absent from the previous snapshot never appears in the alert list. -/
theorem spec_C1_diff_engine :
    (∀ (current previous : Snapshot) (t : ℚ) (s : String),
      (current.map Prod.fst).Nodup →
      (((∃ a ∈ diffAlerts current previous t, a.symbol = s) ↔
         ∃ c p, lookup current s = some c ∧ lookup previous s = some p ∧
           0 < p.oi ∧ t ≤ |(c.oi - p.oi) / p.oi|) ∧
       (∀ a ∈ diffAlerts current previous t, a.symbol = s →
         ∃ c p, lookup current s = some c ∧ lookup previous s = some p ∧
           a.change = (c.oi - p.oi) / p.oi ∧ a.prev_oi = p.oi ∧ a.oi = c.oi)))
    ∧ diffAlerts [("S", mkE 106)] [("S", mkE 100)] (5/100) =
        [⟨"S", 106, 106, 1, 3/50, "🚀", 100⟩]
    ∧ diffAlerts [("S", mkE 104)] [("S", mkE 100)] (5/100) = []
    ∧ (∀ x : ℚ, diffAlerts [("S", mkE x)] [("S", mkE 0)] (5/100) = [])
    ∧ (∀ (current previous : Snapshot) (t : ℚ) (s : String),
        lookup previous s = none → ∀ a ∈ diffAlerts current previous t, a.symbol ≠ s) := by
  refine ⟨?general, ?ex106, ?ex104, ?exzero, ?exabsent⟩
  case general =>
    intro current previous t s hnd
    constructor
    · constructor
      · rintro ⟨a, ha, hsym⟩
        obtain ⟨⟨s', c⟩, hmem, hfor⟩ := (mem_diffAlerts _ _ _ _).mp ha
        obtain ⟨p, hp, hpoi, hthr, haeq⟩ := (alertFor_some_iff _ _ _ _ _).mp hfor
        have hs' : s' = s := by rw [haeq] at hsym; exact hsym
        subst hs'
        exact ⟨c, p, (mem_iff_lookup hnd _ _).mp hmem, hp, hpoi, hthr⟩
      · rintro ⟨c, p, hc, hp, hpoi, hthr⟩
        refine ⟨⟨s, c.oi, c.oi_usdt, c.price, (c.oi - p.oi) / p.oi,
                if 0 < (c.oi - p.oi) / p.oi then "🚀" else "📉", p.oi⟩, ?_, rfl⟩
        exact (mem_diffAlerts _ _ _ _).mpr
          ⟨(s, c), (mem_iff_lookup hnd _ _).mpr hc,
           (alertFor_some_iff _ _ _ _ _).mpr ⟨p, hp, hpoi, hthr, rfl⟩⟩
    · intro a ha hsym
      obtain ⟨⟨s', c⟩, hmem, hfor⟩ := (mem_diffAlerts _ _ _ _).mp ha
      obtain ⟨p, hp, hpoi, hthr, haeq⟩ := (alertFor_some_iff _ _ _ _ _).mp hfor
      have hs' : s' = s := by rw [haeq] at hsym; exact hsym
      subst hs'
      refine ⟨c, p, (mem_iff_lookup hnd _ _).mp hmem, hp, ?_, ?_, ?_⟩ <;> rw [haeq]
  case ex106 =>
    simp [diffAlerts, alertFor, lookup, mkE, List.filterMap_cons]
    norm_num
    rw [abs_of_pos (by norm_num : (0:ℚ) < 3/50), if_pos (by norm_num : (1:ℚ)/20 ≤ 3/50)]
  case ex104 =>
    simp [diffAlerts, alertFor, lookup, mkE, List.filterMap_cons]
    norm_num
    rw [abs_of_pos (by norm_num : (0:ℚ) < 1/25), if_neg (by norm_num : ¬ ((1:ℚ)/20 ≤ 1/25))]
  case exzero =>
    intro x; simp [diffAlerts, alertFor, lookup, mkE]
  case exabsent =>
    intro current previous t s hnone a ha hsym
    obtain ⟨⟨s', c⟩, hmem, hfor⟩ := (mem_diffAlerts _ _ _ _).mp ha
    obtain ⟨p, hp, _, _, haeq⟩ := (alertFor_some_iff _ _ _ _ _).mp hfor
    have hs' : s' = s := by rw [haeq] at hsym; exact hsym
    subst hs'
    rw [hnone] at hp
    exact Option.noConfusion hp

/-- Witness for C1: instantiating the general equivalence at the concrete
106-vs-100 snapshots with threshold 0.05 produces the alert for `"S"`. -/
theorem spec_C1_witness :
    ∃ a ∈ diffAlerts [("S", mkE 106)] [("S", mkE 100)] (5/100), a.symbol = "S" :=
  ((spec_C1_diff_engine.1 [("S", mkE 106)] [("S", mkE 100)] (5/100) "S"
      (by simp)).1).mpr
    ⟨mkE 106, mkE 100, by simp [lookup, mkE], by simp [lookup, mkE],
     by norm_num [mkE],
     by
       norm_num [mkE]
       rw [abs_of_pos (by norm_num : (0:ℚ) < 3/50)]
       norm_num⟩

/-- C2 (corrected). Symbol normalization is a total deterministic function,
but it is not idempotent: every application appends the 4-character suffix
`USDT` while stripping only length-5 `/USDT` blocks, so for every string `s`,
`normalize (normalize s) ≠ normalize s`. -/
theorem spec_C2_normalize_not_idempotent (s : String) :
    normalizeSym (normalizeSym s) ≠ normalizeSym s := by
  intro h
  have hlen : (normalizeSym (normalizeSym s)).length = (normalizeSym s).length := by rw [h]
  obtain ⟨k, hk⟩ := pyReplaceSep_length (normalizeSym s).data
  simp [normalizeSym, String.length] at hlen hk
  omega

/-- Counterexample for C2 as stated: at input "BTC", a second normalization
changes the result, so `normalize (normalize s) = normalize s` fails. -/
theorem spec_C2_counterexample :
    normalizeSym "BTC" = "BTCUSDT" ∧ normalizeSym (normalizeSym "BTC") = "BTCUSDTUSDT" ∧
      normalizeSym (normalizeSym "BTC") ≠ normalizeSym "BTC" :=
  ⟨by decide, by decide, by decide⟩

/-- Witness for C2: the non-idempotence theorem applied at the concrete
input "ETH". -/
theorem spec_C2_witness :
    normalizeSym (normalizeSym "ETH") ≠ normalizeSym "ETH" :=
  spec_C2_normalize_not_idempotent "ETH"

/-- C3 (corrected). `detect` extracts the list of the first shape in priority
order (top-level array > `.data` > `.list` > `.data.list`) that IS AN ARRAY —
not the first shape passing the fingerprint — and signals iff that one
extracted list passes the fingerprint test; lower-priority shapes are never
consulted, even when they would satisfy the fingerprint. -/
theorem spec_C3_first_array_shape (json : JVal) :
    detect json =
      (((shapeCandidates json).filterMap id).head?).bind
        (fun l => if fingerprint l then some l else none) := by
  unfold detect selectList shapeCandidates
  cases h1 : asArr json with
  | some xs => simp
  | none =>
    cases h2 : jarrGet json "data" with
    | some xs => simp
    | none =>
      cases h3 : jarrGet json "list" with
      | some xs => simp
      | none =>
        cases h4 : jget json "data" with
        | some d =>
          by_cases h5 : jtruthy d
          · cases h6 : jarrGet d "list" with
            | some xs => simp [h5, h6]
            | none => simp [h5, h6]
          · simp [h5]
        | none => simp

/-- Counterexample for C3 as stated: in `cexJson` the `.list` shape satisfies
the fingerprint, yet no payload is signalled, because the higher-priority
`.data` shape is an array (of length 2) and fails the fingerprint. -/
theorem spec_C3_counterexample :
    fingerprint good5 = true ∧ jarrGet cexJson "list" = some good5 ∧
      detect cexJson = none :=
  ⟨rfl, rfl, rfl⟩

/-- C4. The alert ordering is a stable descending sort on `|change|`: the
output is a permutation of the input, pairwise descending in `sortKey`, ties
keep encounter order (the sublist at each key value is preserved), and the
concrete example with changes [+0.20, -0.20, +0.10] on [A, B, C] comes out as
[A, B, C] with the tied A before B. -/
theorem spec_C4_ranking :
    (∀ l : List Alert, List.Perm (sortAlertsDesc l) l)
    ∧ (∀ l : List Alert, (sortAlertsDesc l).Pairwise (fun x y => sortKey y ≤ sortKey x))
    ∧ (∀ (l : List Alert) (k : ℚ),
        (sortAlertsDesc l).filter (fun x => sortKey x == k) =
          l.filter (fun x => sortKey x == k))
    ∧ sortAlertsDesc [alertA, alertB, alertC] = [alertA, alertB, alertC] := by
  refine ⟨sortAlertsDesc_perm, sortAlertsDesc_sorted, filter_sortAlertsDesc, ?_⟩
  have hA : sortKey alertA = 1/5 := by simp [sortKey, alertA]
  have hB : sortKey alertB = 1/5 := by
    simp [sortKey, alertB]
    rw [abs_of_neg (by norm_num : (-1:ℚ)/5 < 0)]
    norm_num
  have hC : sortKey alertC = 1/10 := by simp [sortKey, alertC]
  have hCB : sortKey alertC ≤ sortKey alertB := by rw [hB, hC]; norm_num
  have hBA : sortKey alertB ≤ sortKey alertA := by rw [hA, hB]
  simp [sortAlertsDesc, insertAlert, hCB, hBA]

/-- C8. The capture signal is one-shot and idempotent: over any sequence of
callback invocations the recorded result is the first message (or none), and
an invocation on an already-set future returns it unchanged (no error). -/
theorem spec_C8_one_shot :
    (∀ msgs : List String, runCallbacks msgs = msgs.head?)
    ∧ (∀ (r m : String), on_data_received m (some r) = some r) := by
  constructor
  · intro msgs
    cases msgs with
    | nil => rfl
    | cons m rest =>
      show List.foldl (fun f m => on_data_received m f) (on_data_received m none) rest = some m
      rw [show on_data_received m none = some m from rfl, foldl_callbacks_some]
  · intro r m; rfl

/-- C9 (code bug). The filtering minimum defaults to 0 (src/main.py line 161)
but the footer renders the minimum with default 10000000 (line 320), so with
`min_oi_usdt` unconfigured the footer does not display the active minimum;
the threshold defaults agree between filter and footer. -/
theorem spec_C9_footer_mismatch :
    activeMinOi ⟨none⟩ = 0 ∧ footerMinOi ⟨none⟩ = 10000000
    ∧ (∀ c : AppConfig, footerThreshold c = activeThreshold c) :=
  ⟨rfl, rfl, fun _ => rfl⟩

/-- C5 (corrected). Normalization is partial-failure tolerant: a record the
loop drops silently (resolution failure or failed coercion — both give
`.ok none`) has no effect on the processing of its sibling records; every
record the loop accepts ends up with its canonical symbol present in the
final map; and the concrete batch of 10 records with 3 non-numeric OI fields
yields exactly the 7 canonical records. (As stated the claim is false: the
`oi_usdt >= MIN_OI_USDT` filter, present even at its default 0, can drop a
record that passes resolution and coercion — see the counterexample.) -/
theorem spec_C5_partial_tolerance :
    (∀ (minOi t : ℚ) (l1 l2 : List JVal) (item : JVal),
       processItem item minOi t = .ok none →
       buildCurrentMap (.arr (l1 ++ item :: l2)) minOi t =
         buildCurrentMap (.arr (l1 ++ l2)) minOi t)
    ∧ (∀ (minOi t : ℚ) (items : List JVal) (m : Snapshot) (item : JVal)
         (s : String) (e : Entry),
       item ∈ items → processItem item minOi t = .ok (some (s, e)) →
       buildCurrentMap (.arr items) minOi t = .ok m → (lookup m s).isSome)
    ∧ buildCurrentMap (.arr batch10) 0 0 =
        .ok [("AUSDT", ⟨1, 1, 1, 0⟩), ("BUSDT", ⟨2, 1, 2, 0⟩), ("CUSDT", ⟨3, 1, 3, 0⟩),
             ("DUSDT", ⟨4, 1, 4, 0⟩), ("EUSDT", ⟨5, 1, 5, 0⟩), ("FUSDT", ⟨6, 1, 6, 0⟩),
             ("GUSDT", ⟨7, 1, 7, 0⟩)] := by
  refine ⟨dropped_no_effect, ?kept, ?batch⟩
  case kept =>
    intro minOi t items m item s e hmem hacc hrun
    exact accepted_key_present minOi t items [] m item s e hmem hacc hrun
  case batch =>
    have hbadf : pyFloatStr "notanumber" = none := rfl
    simp [buildCurrentMap, batch10, buildStep, processItem, goodItem, badItem,
          resolveSymbol, resolveOi, resolvePrice, computeOiUsdt, dictGetD, jget,
          pyOr, jtruthy, isNull, pyFloat, hasKey, normalizeSym, pyReplaceSep,
          upsert, hbadf]

/-- Witness for C5: dropping the non-numeric record `badItem "X"` from a
batch leaves the result of processing the remaining records unchanged. -/
theorem spec_C5_witness :
    buildCurrentMap (.arr [goodItem "A" 1, badItem "X", goodItem "B" 2]) 0 0 =
      buildCurrentMap (.arr [goodItem "A" 1, goodItem "B" 2]) 0 0 :=
  spec_C5_partial_tolerance.1 0 0 [goodItem "A" 1] [goodItem "B" 2] (badItem "X")
    (by
      have hbadf : pyFloatStr "notanumber" = none := rfl
      simp [processItem, badItem, resolveSymbol, resolveOi, resolvePrice,
            dictGetD, jget, pyOr, jtruthy, isNull, pyFloat, hbadf])

/-- Counterexample for C5 as stated: `negItem` has a resolvable truthy symbol,
a non-None oi, and both coercions succeed (oi -5, price 1), yet with the
default minimum 0 the record yields no canonical entry, because its derived
notional -5 fails `oi_usdt >= MIN_OI_USDT`. -/
theorem spec_C5_counterexample :
    jtruthy (resolveSymbol negItem) = true ∧ isNull (resolveOi negItem) = false ∧
      pyFloat (resolveOi negItem) = some (-5) ∧ pyFloat (resolvePrice negItem) = some 1 ∧
      buildCurrentMap (.arr [negItem]) 0 0 = .ok [] := by
  refine ⟨rfl, rfl, rfl, rfl, ?_⟩
  simp [buildCurrentMap, buildStep, processItem, negItem, resolveSymbol, resolveOi,
        resolvePrice, computeOiUsdt, dictGetD, jget, pyOr, jtruthy, isNull, pyFloat,
        hasKey, normalizeSym, pyReplaceSep]
  norm_num

/-- C6 (corrected). For every record accepted into the snapshot: when the
record carries `openInterestAmount`, that coerced value is the stored
`oi_usdt` (the override wins); otherwise `oi_usdt = oi * price` when
`price > 0` and `0` when `price <= 0` — not `oi * price` unconditionally,
see the counterexample with a negative price. -/
theorem spec_C6_notional (item : JVal) (minOi t : ℚ) (s : String) (e : Entry)
    (h : processItem item minOi t = .ok (some (s, e))) :
    if hasKey item "openInterestAmount" then
      pyFloat (dictGetD item "openInterestAmount") = some e.oi_usdt
    else e.oi_usdt = if 0 < e.price then e.oi * e.price else 0 := by
  obtain ⟨nm, -, -, -, -, hc, -, -⟩ := processItem_ok_some h
  unfold computeOiUsdt at hc
  split at hc
  · rename_i hk
    rw [if_pos hk]
    exact hc
  · rename_i hk
    rw [if_neg hk]
    simpa using hc.symm

/-- Witness for C6: the record `amtItem` (oi 2, price 3, explicit
openInterestAmount 50) is accepted with `oi_usdt = 50`, the explicit value
overriding the computed `2 * 3`. -/
theorem spec_C6_witness :
    (if hasKey amtItem "openInterestAmount" then
       pyFloat (dictGetD amtItem "openInterestAmount") = some ((⟨2, 3, 50, 0⟩ : Entry)).oi_usdt
     else ((⟨2, 3, 50, 0⟩ : Entry)).oi_usdt =
       if 0 < ((⟨2, 3, 50, 0⟩ : Entry)).price then
         ((⟨2, 3, 50, 0⟩ : Entry)).oi * ((⟨2, 3, 50, 0⟩ : Entry)).price else 0) :=
  spec_C6_notional amtItem 0 0 "AUSDT" ⟨2, 3, 50, 0⟩
    (by
      simp [processItem, amtItem, resolveSymbol, resolveOi, resolvePrice,
            computeOiUsdt, dictGetD, jget, pyOr, jtruthy, isNull, pyFloat,
            hasKey, normalizeSym, pyReplaceSep])

/-- Counterexample for C6 as stated: the record with oi 2 and price -3 has no
override field and is accepted with `oi_usdt = 0`, which differs from
`oi * price = -6` — the default is not `oi * price` when `price <= 0`. -/
theorem spec_C6_counterexample :
    buildCurrentMap (.arr [negPriceItem]) 0 0 = .ok [("AUSDT", ⟨2, -3, 0, 0⟩)]
    ∧ hasKey negPriceItem "openInterestAmount" = false
    ∧ (0 : ℚ) ≠ 2 * (-3) := by
  refine ⟨?_, rfl, by norm_num⟩
  simp [buildCurrentMap, buildStep, processItem, negPriceItem, resolveSymbol,
        resolveOi, resolvePrice, computeOiUsdt, dictGetD, jget, pyOr, jtruthy,
        isNull, pyFloat, hasKey, normalizeSym, pyReplaceSep, upsert]
  norm_num

/-- C7 (corrected). Whenever the snapshot construction completes (no type
error escapes the record loop), the newly built snapshot is what gets saved,
regardless of threshold, history and hence of whether any alerts fired — an
empty payload still overwrites the store with an empty snapshot. (As stated
the claim is false: a payload that parses successfully but whose records are
not dicts raises before the save — see the counterexample.) -/
theorem spec_C7_snapshot_overwrite :
    (∀ (d : JVal) (minOi th t : ℚ) (hist : Snapshot) (m : Snapshot),
       buildCurrentMap d minOi t = .ok m →
       (analyze_and_notify d minOi th t hist).1 = some m)
    ∧ (∀ (d : JVal) (minOi t th1 th2 : ℚ) (h1 h2 : Snapshot),
       (analyze_and_notify d minOi th1 t h1).1 = (analyze_and_notify d minOi th2 t h2).1)
    ∧ analyze_and_notify (.arr []) 0 (5/100) 0 [("S", mkE 5)] = (some [], []) := by
  refine ⟨?saves, ?indep, ?empty⟩
  case saves =>
    intro d minOi th t hist m h
    simp [analyze_and_notify, h]
  case indep =>
    intro d minOi t th1 th2 h1 h2
    cases hb : buildCurrentMap d minOi t <;> simp [analyze_and_notify, hb]
  case empty => rfl

/-- Witness for C7: a one-record payload is saved as the one-entry snapshot
even though no alert fires (empty history). -/
theorem spec_C7_witness :
    (analyze_and_notify (.arr [goodItem "A" 1]) 0 (5/100) 0 []).1 =
      some [("AUSDT", ⟨1, 1, 1, 0⟩)] :=
  spec_C7_snapshot_overwrite.1 (.arr [goodItem "A" 1]) 0 (5/100) 0 [] _
    (by
      simp [buildCurrentMap, buildStep, processItem, goodItem, resolveSymbol,
            resolveOi, resolvePrice, computeOiUsdt, dictGetD, jget, pyOr, jtruthy,
            isNull, pyFloat, hasKey, normalizeSym, pyReplaceSep, upsert])

/-- Counterexample for C7 as stated: `"[1,2,3,4,5]"` parses successfully, but
`item.get('symbol')` raises on the number 1, the outer handler catches it,
and no snapshot is saved (the store is not overwritten). -/
theorem spec_C7_counterexample :
    (analyze_and_notify numsPayload 0 (5/100) 0 []).1 = none := rfl

/-- C10 (corrected). Falsy primary values do fall through to the fallback:
a record whose `openInterest` is 0 with no `oi` key resolves its oi to
`None` (`0 or None`) and is dropped, and a record whose `symbol` is `""`
with no `uSymbol` key is dropped. But the final clause of the claim is false:
a record CAN be recorded with open interest exactly 0, because `None or 0`
yields 0, which passes the `is not None` check — see the counterexample. -/
theorem spec_C10_falsy_fallback :
    (∀ (fields : List (String × JVal)) (minOi t : ℚ),
       dictGetD (.obj fields) "openInterest" = .num 0 →
       hasKey (.obj fields) "oi" = false →
       processItem (.obj fields) minOi t = .ok none)
    ∧ (∀ (fields : List (String × JVal)) (minOi t : ℚ),
       dictGetD (.obj fields) "symbol" = .str "" →
       hasKey (.obj fields) "uSymbol" = false →
       processItem (.obj fields) minOi t = .ok none) := by
  constructor
  · intro fields minOi t h0 hno
    have hoi : dictGetD (.obj fields) "oi" = .null := by
      simp [dictGetD, hasKey_false_jget hno]
    simp [processItem, resolveOi, h0, hoi, pyOr, jtruthy, isNull]
  · intro fields minOi t h0 hno
    have hu : dictGetD (.obj fields) "uSymbol" = .null := by
      simp [dictGetD, hasKey_false_jget hno]
    simp [processItem, resolveSymbol, h0, hu, pyOr, jtruthy, isNull]

/-- Witness for C10: the record `{symbol: "A", openInterest: 0}` (no `oi`
key) is dropped. -/
theorem spec_C10_witness :
    processItem (.obj [("symbol", .str "A"), ("openInterest", .num 0)]) 0 0 = .ok none :=
  spec_C10_falsy_fallback.1 [("symbol", .str "A"), ("openInterest", .num 0)] 0 0
    (by simp [dictGetD, jget]) (by simp [hasKey])

/-- Counterexample for C10's final clause: the record `{symbol: "A", oi: 0,
price: 1}` has open interest exactly 0 and IS recorded (with oi 0), because
the `oi` fallback returns 0, which is not `None`. -/
theorem spec_C10_counterexample :
    dictGetD zeroOiItem "oi" = .num 0 ∧
      buildCurrentMap (.arr [zeroOiItem]) 0 0 = .ok [("AUSDT", ⟨0, 1, 0, 0⟩)] := by
  refine ⟨rfl, ?_⟩
  simp [buildCurrentMap, buildStep, processItem, zeroOiItem, resolveSymbol,
        resolveOi, resolvePrice, computeOiUsdt, dictGetD, jget, pyOr, jtruthy,
        isNull, pyFloat, hasKey, normalizeSym, pyReplaceSep, upsert]
